import Mathlib

/-!
Shallow embedding of the DwarfShell (`dwsh`) shell, translated from
`src/dwsh.py` (the final, canonical revision).  The embedding covers the
lexer (`Tokenizer`), the recursive-descent parser (`Parser`), variable and
wildcard expansion, `PATH` lookup, AST execution (`Node.execute` /
`Node.wait`) and the top-level dispatcher (`Shell.execute`).

Modelling conventions:
* Python exceptions become the inductive `PyExc`; `Except PyExc` replaces
  exception propagation.  In the source `ParseError` is a subclass of
  `ValueError`; the two are distinct constructors here, and the only catch
  site (`Shell.execute`) catches exactly `ParseError`, matching
  `except ParseError`.
* The filesystem and OS are an oracle (`World`): `fsExists` models
  `os.path.exists`, `fsGlob` models `glob.glob(pat, recursive=True)`,
  `fsOpen` models the outcome of `os.open` for a redirection.  Process
  creation is deterministic: `fork` hands out `nextPid` and records the
  child; `waitpid` removes a recorded child and fails with
  `ChildProcessError` (ECHILD) on an already-reaped pid, as the OS does.
* Strings are Lean `String`/`List Char`.  Python's `str.isspace` and
  `str.isprintable` are modelled on their ASCII fragments.
  `str.isalpha` is Unicode-aware in Python; it is modelled on its
  ASCII-plus-Latin-1 fragment (`pyIsAlpha`), which — like Python's
  predicate — is strictly larger than `[A-Za-z]`.  Theorems either
  confine themselves to inputs where these fragments agree with Python
  or assert facts that also hold under the full Unicode predicates.
* Recursive procedures take an explicit fuel argument so that every
  definition is structural and computable by the kernel.  Every recursive
  step consumes at least one input item, so `length + 1` fuel (what the
  entry points pass) never exhausts; the fuel-out value mirrors Python's
  `RecursionError`.  Token source positions are not modelled: no
  behaviour of the program depends on them (they are stored and never
  read).
-/

namespace Dwsh

/-- Python exception values that can cross a function boundary in
`dwsh.py`.  `parseError` is the `ParseError` subclass of `ValueError`;
`valueError` is a plain `ValueError` (the tokenizer's lexical error and
`expandvars`' missing-brace error). -/
inductive PyExc where
  | valueError (msg : String)
  | parseError (msg : String)
  | keyError (key : String)
  | indexError
  | commandNotFound (command : String)
  | fileNotFound (filename : String)
  | isADirectory (filename : String)
  | permissionError (filename : String)
  | childProcessError
  | recursionError
deriving DecidableEq, Repr

/-- Token kinds, from `class TokenType`. -/
inductive TokenType where
  | WORD
  | REDIRECT_OUT
  | REDIRECT_APPEND
  | REDIRECT_IN
  | PIPE
  | COMMAND_END
  | EOF
  | UNKNOWN
deriving DecidableEq, Repr

/-- A token: kind plus optional lexeme (`class Token`; the unused
`position` field is not modelled). -/
structure Token where
  ttype : TokenType
  lexeme : Option String
deriving DecidableEq, Repr

/-- ASCII fragment of Python's `str.isspace`. -/
def pyIsSpace (c : Char) : Bool :=
  c = ' ' || c = '\t' || c = '\n' || c = '\x0b' || c = '\x0c' || c = '\r'

/-- ASCII fragment of Python's `str.isprintable` (space through tilde). -/
def pyIsPrintable (c : Char) : Bool :=
  0x20 ≤ c.toNat && c.toNat ≤ 0x7e

/-- The single-quote character (spelled via its code point). -/
def squote : Char := Char.ofNat 39

/-- The double-quote character (spelled via its code point). -/
def dquote : Char := Char.ofNat 34

/-- The regular expression `WORD_CHARS = re.compile('[^><|;]')`: a
character matches unless it is one of the four operator characters. -/
def wordCharsMatch (c : Char) : Bool :=
  !(c = '>' || c = '<' || c = '|' || c = ';')

/-- A character consumed by the word loop of `Tokenizer.token`: it must
match `WORD_CHARS` and not be whitespace. -/
def wordish (c : Char) : Bool :=
  wordCharsMatch c && !pyIsSpace c

/-- The word loop of `Tokenizer.token`: consume characters while they
match `WORD_CHARS` and are not whitespace. -/
def readWordRun : List Char → List Char × List Char
  | [] => ([], [])
  | c :: rest =>
    if wordish c then
      let (v, r) := readWordRun rest
      (c :: v, r)
    else ([], c :: rest)

/-- The quoted-word loop of `Tokenizer.token`: consume characters until
the closing quote `endc`; end of input first is the lexical error. -/
def readQuoted (endc : Char) : List Char → Except String (List Char × List Char)
  | [] => .error "unexpected end of line while reading quoted word"
  | c :: rest =>
    if c = endc then .ok ([], rest)
    else (readQuoted endc rest).map (fun vr => (c :: vr.1, vr.2))

/-- Dispatch of `Tokenizer.token` after whitespace has been skipped.
Returns the token and the remaining input. -/
def nextTokenCore : List Char → Except String (Token × List Char)
  | [] => .ok (⟨.EOF, none⟩, [])
  | c :: rest =>
    if c = '>' then
      match rest with
      | '>' :: r2 => .ok (⟨.REDIRECT_APPEND, none⟩, r2)
      | _ => .ok (⟨.REDIRECT_OUT, none⟩, rest)
    else if c = '<' then .ok (⟨.REDIRECT_IN, none⟩, rest)
    else if c = '|' then .ok (⟨.PIPE, none⟩, rest)
    else if c = ';' then .ok (⟨.COMMAND_END, none⟩, rest)
    else if c = squote || c = dquote then
      (readQuoted c rest).map (fun vr => (⟨.WORD, some (String.mk vr.1)⟩, vr.2))
    else if wordCharsMatch c then
      let (v, r) := readWordRun (c :: rest)
      .ok (⟨.WORD, some (String.mk v)⟩, r)
    else
      .ok (⟨.UNKNOWN, some (String.mk [c])⟩, rest)

/-- `Tokenizer.token`: skip whitespace, then dispatch. -/
def nextToken (s : List Char) : Except String (Token × List Char) :=
  nextTokenCore (s.dropWhile pyIsSpace)

/-- Fuelled loop of `Tokenizer.__iter__`: collect tokens until `EOF`, or
stop early with the lexical error the tokenizer raised while the parser
was pulling.  Every produced non-`EOF` token consumes at least one input
character, so `s.length + 1` fuel suffices. -/
def tokenizeFuel : Nat → List Char → List Token × Option String
  | 0, _ => ([], some "recursion limit exceeded")
  | n + 1, s =>
    match nextToken s with
    | .error e => ([], some e)
    | .ok (t, r) =>
      if t.ttype = TokenType.EOF then ([t], none)
      else
        let (ts, err) := tokenizeFuel n r
        (t :: ts, err)

/-- The token stream of a raw line: the tokens produced before `EOF` or
before the lexical error, and the error if one is pending. -/
def tokenizeList (s : List Char) : List Token × Option String :=
  tokenizeFuel (s.length + 1) s

/-- Linux values of the `os.O_*` flags used by `Parser.redirection`. -/
def O_RDONLY : Nat := 0

/-- Linux value of `os.O_WRONLY`. -/
def O_WRONLY : Nat := 1

/-- Linux value of `os.O_CREAT`. -/
def O_CREAT : Nat := 64

/-- Linux value of `os.O_TRUNC`. -/
def O_TRUNC : Nat := 512

/-- Linux value of `os.O_APPEND`. -/
def O_APPEND : Nat := 1024

/-- A single redirection descriptor as built by the parser: target fd
plus the pending open spec (filename, open-mode flags).  The
already-open-fd form used internally for pipe ends carries no data the
claims observe and is not modelled. -/
structure Redirection where
  fd : Nat
  filename : String
  mode : Nat
deriving DecidableEq, Repr

/-- The AST (`CommandNode`, `MultiNode`, `PipeNode`, `RedirectionsNode`). -/
inductive Node where
  | command (args : List String)
  | multi (first second : Node)
  | pipe (first second : Node)
  | redirections (base : Node) (redirs : List Redirection)
deriving DecidableEq, Repr

/-- Parser state.  The source parser pulls lazily from the tokenizer
generator with a one-token lookahead (`self.token`); here `toks.head?`
is that lookahead and `lexErr` is the `ValueError` the tokenizer will
raise if the parser pulls past the last good token. -/
structure PState where
  toks : List Token
  lexErr : Option String
deriving DecidableEq, Repr

/-- `Parser.next`: pull the next token from the stream.  Pulling past the
truncation point raises the tokenizer's pending `ValueError`; pulling
from an exhausted healthy stream just leaves the lookahead empty
(`next(self.tokens, None)`). -/
def pAdvance (st : PState) : Except PyExc PState :=
  match st.toks with
  | _ :: r =>
    if r.isEmpty then
      match st.lexErr with
      | some e => .error (.valueError e)
      | none => .ok ⟨[], none⟩
    else .ok ⟨r, st.lexErr⟩
  | [] => .ok st

/-- `Parser.__init__` performs the first `next()` pull; if the very
first token is malformed the `ValueError` is raised during construction,
before `Shell.execute` enters its `try` block. -/
def pInit (toks : List Token) (lexErr : Option String) : Except PyExc PState :=
  match toks with
  | [] =>
    match lexErr with
    | some e => .error (.valueError e)
    | none => .ok ⟨[], none⟩
  | _ => .ok ⟨toks, lexErr⟩

/-- `Parser.accept`: if the lookahead has the wanted kind, consume it and
return it (`self.last`); otherwise leave the state unchanged. -/
def pAccept (tt : TokenType) (st : PState) : Except PyExc (Option Token × PState) :=
  match st.toks.head? with
  | some t =>
    if t.ttype = tt then (pAdvance st).map (fun st' => (some t, st'))
    else .ok (none, st)
  | none => .ok (none, st)

/-- Printable name of a token kind, as Python's `str` renders the enum
member (used in the `expect` error message). -/
def ttName : TokenType → String
  | .WORD => "TokenType.WORD"
  | .REDIRECT_OUT => "TokenType.REDIRECT_OUT"
  | .REDIRECT_APPEND => "TokenType.REDIRECT_APPEND"
  | .REDIRECT_IN => "TokenType.REDIRECT_IN"
  | .PIPE => "TokenType.PIPE"
  | .COMMAND_END => "TokenType.COMMAND_END"
  | .EOF => "TokenType.EOF"
  | .UNKNOWN => "TokenType.UNKNOWN"

/-- `Parser.expect`: like `accept` but a missing match is a `ParseError`. -/
def pExpect (tt : TokenType) (st : PState) : Except PyExc (Token × PState) :=
  match pAccept tt st with
  | .error e => .error e
  | .ok (some t, st') => .ok (t, st')
  | .ok (none, _) => .error (.parseError ("expected token " ++ ttName tt))

/-- The `while self.accept(WORD)` loop of `Parser.command`, collecting
the lexemes of consecutive `WORD` tokens. -/
def commandWords : Nat → PState → Except PyExc (List String × PState)
  | 0, _ => .error .recursionError
  | n + 1, st =>
    match pAccept .WORD st with
    | .error e => .error e
    | .ok (none, st') => .ok ([], st')
    | .ok (some t, st') =>
      match commandWords n st' with
      | .error e => .error e
      | .ok (ws, st'') => .ok (t.lexeme.getD "" :: ws, st'')

/-- `Parser.command`: one or more `WORD` tokens become a `CommandNode`;
anything else produces nothing. -/
def pCommand (fuel : Nat) (st : PState) : Except PyExc (Option Node × PState) :=
  match pAccept .WORD st with
  | .error e => .error e
  | .ok (none, st') => .ok (none, st')
  | .ok (some t, st') =>
    match commandWords fuel st' with
    | .error e => .error e
    | .ok (ws, st'') => .ok (some (.command (t.lexeme.getD "" :: ws)), st'')

/-- `Parser.redirection`: one redirection operator followed by a `WORD`
filename; no operator produces nothing. -/
def pRedirection (st : PState) : Except PyExc (Option Redirection × PState) :=
  match pAccept .REDIRECT_OUT st with
  | .error e => .error e
  | .ok (some _, st1) =>
    match pExpect .WORD st1 with
    | .error e => .error e
    | .ok (t, st2) => .ok (some ⟨1, t.lexeme.getD "", O_CREAT ||| O_WRONLY ||| O_TRUNC⟩, st2)
  | .ok (none, _) =>
    match pAccept .REDIRECT_APPEND st with
    | .error e => .error e
    | .ok (some _, st1) =>
      match pExpect .WORD st1 with
      | .error e => .error e
      | .ok (t, st2) => .ok (some ⟨1, t.lexeme.getD "", O_CREAT ||| O_WRONLY ||| O_APPEND⟩, st2)
    | .ok (none, _) =>
      match pAccept .REDIRECT_IN st with
      | .error e => .error e
      | .ok (some _, st1) =>
        match pExpect .WORD st1 with
        | .error e => .error e
        | .ok (t, st2) => .ok (some ⟨0, t.lexeme.getD "", O_RDONLY⟩, st2)
      | .ok (none, st1) => .ok (none, st1)

/-- The collection loop of `Parser.redirections`. -/
def redirectionsList : Nat → PState → Except PyExc (List Redirection × PState)
  | 0, _ => .error .recursionError
  | n + 1, st =>
    match pRedirection st with
    | .error e => .error e
    | .ok (none, st') => .ok ([], st')
    | .ok (some r, st') =>
      match redirectionsList n st' with
      | .error e => .error e
      | .ok (rs, st'') => .ok (r :: rs, st'')

/-- `Parser.redirections`: a possibly-empty run of redirections; only a
non-empty run produces a `Redirections` value. -/
def pRedirections (fuel : Nat) (st : PState) : Except PyExc (Option (List Redirection) × PState) :=
  match redirectionsList fuel st with
  | .error e => .error e
  | .ok ([], st') => .ok (none, st')
  | .ok (rs, st') => .ok (some rs, st')

/-- `Parser.line`: a command, optionally wrapped in redirections,
optionally piped into another line; a dangling `|` is a parse error. -/
def pLine : Nat → PState → Except PyExc (Option Node × PState)
  | 0, _ => .error .recursionError
  | n + 1, st =>
    match pCommand n st with
    | .error e => .error e
    | .ok (none, st1) => .ok (none, st1)
    | .ok (some base0, st1) =>
      match pRedirections n st1 with
      | .error e => .error e
      | .ok (redirs?, st2) =>
        let base1 := match redirs? with
          | some rs => Node.redirections base0 rs
          | none => base0
        match pAccept .PIPE st2 with
        | .error e => .error e
        | .ok (some _, st3) =>
          match pLine n st3 with
          | .error e => .error e
          | .ok (none, _) => .error (.parseError "expected command")
          | .ok (some other, st4) => .ok (some (.pipe base1 other), st4)
        | .ok (none, st2') => .ok (some base1, st2')

/-- `Parser.lines`: a line, then optionally `;` and more lines; the two
halves are combined into a `Multi` only when both are non-null. -/
def pLines : Nat → PState → Except PyExc (Option Node × PState)
  | 0, _ => .error .recursionError
  | n + 1, st =>
    match pLine n st with
    | .error e => .error e
    | .ok (base, st1) =>
      match pAccept .COMMAND_END st1 with
      | .error e => .error e
      | .ok (some _, st2) =>
        match pLines n st2 with
        | .error e => .error e
        | .ok (other, st3) =>
          match base, other with
          | some x, some y => .ok (some (.multi x y), st3)
          | some x, none => .ok (some x, st3)
          | none, some y => .ok (some y, st3)
          | none, none => .ok (none, st3)
      | .ok (none, st1') => .ok (base, st1')

/-- `Parser.parse` run from an initialised state: the top-level `lines`
production followed by a required `EOF`. -/
def parseFrom (st : PState) : Except PyExc (Option Node) :=
  match pLines (4 * st.toks.length + 8) st with
  | .error e => .error e
  | .ok (root, st1) =>
    match pExpect .EOF st1 with
    | .error e => .error e
    | .ok _ => .ok root

/-- Parse a raw line: tokenize, construct the parser (which pulls the
first token) and run `parse`. -/
def parseLine (raw : String) : Except PyExc (Option Node) :=
  let (toks, lexErr) := tokenizeList raw.data
  match pInit toks lexErr with
  | .error e => .error e
  | .ok st => parseFrom st

/-- A dictionary lookup in the environment (`variables[name]` yields the
value, or raises `KeyError` when absent — expressed by `Option` here). -/
def lookupVar (env : List (String × String)) (name : String) : Option String :=
  (env.find? (fun kv => kv.1 = name)).map (fun kv => kv.2)

/-- Fragment of Python's Unicode-aware `str.isalpha` covering ASCII and
the Latin-1 supplement: the ASCII letters plus `ª`, `µ`, `º` and the
accented letters `À`–`ÿ` except the symbols `×` and `÷`.  Python's
predicate accepts every Unicode letter, so — like this fragment — it is
strictly larger than `[A-Za-z]`. -/
def pyIsAlpha (c : Char) : Bool :=
  c.isAlpha ||
  (0xC0 ≤ c.toNat && c.toNat ≤ 0xFF && !(c.toNat = 0xD7) && !(c.toNat = 0xF7)) ||
  c.toNat = 0xAA || c.toNat = 0xB5 || c.toNat = 0xBA

/-- A character accepted by the unbraced variable-name loop of
`CommandNode.expandvars`: `raw[i].isalpha() or raw[i] == '_'`. -/
def isNameChar (c : Char) : Bool :=
  pyIsAlpha c || c = '_'

/-- The unbraced name loop of `CommandNode.expandvars`: greedily consume
name characters, returning the name and the remaining input. -/
def scanName : List Char → List Char × List Char
  | [] => ([], [])
  | c :: rest =>
    if isNameChar c then
      let (v, r) := scanName rest
      (c :: v, r)
    else ([], c :: rest)

/-- The braced name loop of `CommandNode.expandvars`: consume any
characters until `}`; end of input first raises
`ValueError('expected end brace')`. -/
def scanBraced : List Char → Except PyExc (List Char × List Char)
  | [] => .error (.valueError "expected end brace")
  | c :: rest =>
    if c = '}' then .ok ([], rest)
    else (scanBraced rest).map (fun vr => (c :: vr.1, vr.2))

/-- Fuelled body of `CommandNode.expandvars`.  Each iteration consumes at
least one input character, so `raw.length + 1` fuel suffices.  After a
`$` the source indexes `raw[i]` without a bounds check, so a trailing
`$` raises `IndexError`; an unknown (possibly empty) name raises
`KeyError`. -/
def expandvarsFuel (vars : List (String × String)) : Nat → List Char → Except PyExc (List Char)
  | 0, _ => .error .recursionError
  | n + 1, raw =>
    match raw with
    | [] => .ok []
    | c :: rest =>
      if c = '$' then
        match rest with
        | [] => .error .indexError
        | c2 :: rest2 =>
          if c2 = '{' then
            match scanBraced rest2 with
            | .error e => .error e
            | .ok (name, r) =>
              match lookupVar vars (String.mk name) with
              | none => .error (.keyError (String.mk name))
              | some v =>
                match expandvarsFuel vars n r with
                | .error e => .error e
                | .ok out => .ok (v.data ++ out)
          else
            match scanName (c2 :: rest2) with
            | (name, r) =>
              match lookupVar vars (String.mk name) with
              | none => .error (.keyError (String.mk name))
              | some v =>
                match expandvarsFuel vars n r with
                | .error e => .error e
                | .ok out => .ok (v.data ++ out)
      else
        match expandvarsFuel vars n rest with
        | .error e => .error e
        | .ok out => .ok (c :: out)

/-- `CommandNode.expandvars`: expand `$NAME` and `${NAME}` references in
a word against the variable dictionary. -/
def expandvars (raw : String) (vars : List (String × String)) : Except PyExc String :=
  (expandvarsFuel vars (raw.data.length + 1) raw.data).map String.mk

/-- Python's `str.startswith` for a single pattern (expressed over the
character lists so that the kernel can evaluate it). -/
def strStartsWith (s pat : String) : Bool :=
  pat.data.isPrefixOf s.data

/-- Python's `str.endswith` for a single pattern. -/
def strEndsWith (s pat : String) : Bool :=
  pat.data.isSuffixOf s.data

/-- Python's `str.split` with an explicit one-character separator, on
character lists: `''.split(':') == ['']`, `'a::b'.split(':') == ['a','','b']`. -/
def pySplitAux (sep : Char) : List Char → List (List Char)
  | [] => [[]]
  | c :: rest =>
    if c = sep then [] :: pySplitAux sep rest
    else
      match pySplitAux sep rest with
      | [] => [[c]]
      | word :: rest' => (c :: word) :: rest'

/-- Python's `str.split(sep)` for a one-character separator. -/
def pySplit (s : String) (sep : Char) : List String :=
  (pySplitAux sep s.data).map String.mk

/-- The two-argument `os.path.join` on POSIX: an absolute second
component discards the first; otherwise the components are joined with a
separator unless one is already present. -/
def osPathJoin (a b : String) : String :=
  if strStartsWith b "/" then b
  else if a = "" || strEndsWith a "/" then a ++ b
  else a ++ "/" ++ b

/-- The oracle for everything the OS decides: file existence
(`os.path.exists`), recursive globbing (`glob.glob(pat, recursive=True)`),
the outcome of `os.open` for a redirection (`none` means success), and
the variable environment (`os.environ`). -/
structure World where
  fsExists : String → Bool
  fsGlob : String → List String
  fsOpen : String → Nat → Option PyExc
  env : List (String × String)

/-- `CommandNode.glob`: a word containing `*` is expanded against the
filesystem; any other word passes through as a singleton list. -/
def globWord (w : World) (raw : String) : List String :=
  if raw.data.contains '*' then w.fsGlob raw else [raw]

/-- The `for di in path` loop of `CommandNode.lookup`: first entry whose
join with the filename exists wins; exhaustion raises
`CommandNotFoundError`. -/
def lookupSearch (w : World) (filename : String) : List String → Except PyExc String
  | [] => .error (.commandNotFound filename)
  | di :: rest =>
    let possible := osPathJoin di filename
    if w.fsExists possible then .ok possible
    else lookupSearch w filename rest

/-- `CommandNode.lookup`: a name beginning with `/` or `./` that exists
is used verbatim; otherwise the path entries are searched in order. -/
def lookup (w : World) (filename : String) (path : List String) : Except PyExc String :=
  if (strStartsWith filename "/" || strStartsWith filename "./") && w.fsExists filename then
    .ok filename
  else lookupSearch w filename path

/-- Process bookkeeping of the shell: the next pid `os.fork` will hand
out, the forked-but-unreaped children, and the trace of dispatched
commands (each entry is the resolved program and the argv it received,
covering both built-in invocation and `os.execv` in the child). -/
structure ProcState where
  nextPid : Nat
  children : List Nat
  execed : List (String × List String)
deriving DecidableEq, Repr

/-- `os.waitpid(pid, 0)`: reap a recorded child; waiting on a pid that
is not an outstanding child fails with `ChildProcessError` (ECHILD). -/
def waitpid (pid : Nat) (st : ProcState) : Except PyExc ProcState :=
  if st.children.contains pid then
    .ok { st with children := st.children.erase pid }
  else .error .childProcessError

/-- The AST after (partial) execution: the same shape as `Node`, with
the `pid` attribute each `CommandNode` carries at runtime. -/
inductive RNode where
  | command (args : List String) (pid : Option Nat)
  | multi (first second : RNode)
  | pipe (first second : RNode)
  | redirections (base : RNode) (redirs : List Redirection)
deriving DecidableEq, Repr

/-- A freshly-constructed runtime node: no pids recorded anywhere. -/
def initR : Node → RNode
  | .command args => .command args none
  | .multi a b => .multi (initR a) (initR b)
  | .pipe a b => .pipe (initR a) (initR b)
  | .redirections base rs => .redirections (initR base) rs

/-- All child pids recorded in a runtime node. -/
def pidsOf : RNode → List Nat
  | .command _ none => []
  | .command _ (some p) => [p]
  | .multi a b => pidsOf a ++ pidsOf b
  | .pipe a b => pidsOf a ++ pidsOf b
  | .redirections base _ => pidsOf base

/-- The `wait` method of each node class.  `CommandNode.wait` calls
`os.waitpid` when a pid was recorded (and does not clear the pid);
`MultiNode` defines no `wait` and inherits the base class no-op;
`PipeNode.wait` waits on both halves; `RedirectionsNode.wait` delegates. -/
def RNode.wait : RNode → ProcState → Except PyExc ProcState
  | .command _ (some p), st => waitpid p st
  | .command _ none, st => .ok st
  | .multi _ _, st => .ok st
  | .pipe a b, st =>
    match a.wait st with
    | .error e => .error e
    | .ok st' => b.wait st'
  | .redirections base _, st => base.wait st

/-- Attempt the `open()` calls a `Redirections` scope entry performs, in
list order; the first OS failure aborts the entry. -/
def openAll (w : World) : List Redirection → Option PyExc
  | [] => none
  | r :: rest =>
    match w.fsOpen r.filename r.mode with
    | some e => some e
    | none => openAll w rest

/-- The `execute` methods.  Returns the runtime tree (with any pids
recorded before the failure), the process state, and the exception that
escaped, if any.

`CommandNode.execute` first runs variable expansion over every argv word
— and then the glob pass iterates over `self.args`, the original words,
so the expansion result is discarded (the comprehension on line 440 of
`src/dwsh.py` reads `self.args` instead of `args`).  `args[0]` of the
flattened glob output is the program: an empty list raises `IndexError`.
A built-in runs in-process; otherwise the program is resolved against
`variables['PATH']` (a missing `PATH` raises `KeyError`) and the shell
forks, recording the child pid in the parent while the child execs.

`MultiNode.execute` is execute-wait-execute-wait; `PipeNode.execute`
runs both halves (its fd plumbing and hooks do not touch the process
bookkeeping modelled here); `RedirectionsNode.execute` opens the
redirection files and runs its base inside the scope.  An exception
propagates immediately, leaving later subtrees unexecuted. -/
def exec1 (w : World) (builtins : List String) : Node → ProcState → RNode × ProcState × Option PyExc
  | .command args, st =>
    match args.mapM (fun a => expandvars a w.env) with
    | .error e => (.command args none, st, some e)
    | .ok _expanded =>
      let gargs := (args.map (globWord w)).flatten
      match gargs.head? with
      | none => (.command args none, st, some .indexError)
      | some command =>
        if builtins.contains command then
          (.command args none,
           { st with execed := st.execed ++ [(command, gargs)] }, none)
        else
          match lookupVar w.env "PATH" with
          | none => (.command args none, st, some (.keyError "PATH"))
          | some pathStr =>
            match lookup w command (pySplit pathStr ':') with
            | .error e => (.command args none, st, some e)
            | .ok path =>
              let pid := st.nextPid
              (.command args (some pid),
               { nextPid := st.nextPid + 1,
                 children := st.children ++ [pid],
                 execed := st.execed ++ [(path, gargs)] }, none)
  | .multi a b, st =>
    match exec1 w builtins a st with
    | (ra, st1, some e) => (.multi ra (initR b), st1, some e)
    | (ra, st1, none) =>
      match ra.wait st1 with
      | .error e => (.multi ra (initR b), st1, some e)
      | .ok st2 =>
        match exec1 w builtins b st2 with
        | (rb, st3, some e) => (.multi ra rb, st3, some e)
        | (rb, st3, none) =>
          match rb.wait st3 with
          | .error e => (.multi ra rb, st3, some e)
          | .ok st4 => (.multi ra rb, st4, none)
  | .pipe a b, st =>
    match exec1 w builtins a st with
    | (ra, st1, some e) => (.pipe ra (initR b), st1, some e)
    | (ra, st1, none) =>
      match exec1 w builtins b st1 with
      | (rb, st2, e?) => (.pipe ra rb, st2, e?)
  | .redirections base rs, st =>
    match openAll w rs with
    | some e => (.redirections (initR base) rs, st, some e)
    | none =>
      match exec1 w builtins base st with
      | (rbase, st1, e?) => (.redirections rbase rs, st1, e?)

/-- What `Shell.execute` does with one raw line, as observed from the
read loop. -/
inductive ShellOutcome where
  | parseErrorPrinted (msg : String)
  | errorPrinted (summary : String) (details : String)
  | crashed (e : PyExc)
  | done
deriving DecidableEq, Repr

/-- The `except` clauses of `Shell.execute`: the four classified runtime
errors print a diagnostic and the loop continues; any other exception
escapes and terminates the shell. -/
def classify : PyExc → ShellOutcome
  | .commandNotFound c => .errorPrinted "command not found" c
  | .fileNotFound f => .errorPrinted "no such file or directory" f
  | .isADirectory f => .errorPrinted "is a directory" f
  | .permissionError f => .errorPrinted "permission denied" f
  | e => .crashed e

/-- The execution half of `Shell.execute`: run the root, then — in a
`finally` — wait on it; an exception raised by the wait replaces any
pending one. -/
def shellRootExec (w : World) (builtins : List String) (root : Node)
    (st : ProcState) : ShellOutcome × ProcState :=
  match exec1 w builtins root st with
  | (rn, st1, e?) =>
    match rn.wait st1 with
    | .error we => (.crashed we, st1)
    | .ok st2 =>
      match e? with
      | none => (.done, st2)
      | some e => (classify e, st2)

/-- `Shell.execute` on one raw line: tokenize, construct the parser
(outside the `try`, so a first-token lexical error escapes uncaught),
parse (catching exactly `ParseError`), and execute any resulting root. -/
def shellExecute (w : World) (builtins : List String) (raw : String)
    (st : ProcState) : ShellOutcome × ProcState :=
  let (toks, lexErr) := tokenizeList raw.data
  match pInit toks lexErr with
  | .error e => (.crashed e, st)
  | .ok pst =>
    match parseFrom pst with
    | .error e =>
      match e with
      | .parseError m => (.parseErrorPrinted m, st)
      | _ => (.crashed e, st)
    | .ok none => (.done, st)
    | .ok (some root) => shellRootExec w builtins root st

/-- Follows the spec's words (§4.3 step 1, the statement of claim C1):
for each argv word perform variable expansion, then wildcard expansion
on the result of that variable expansion; the output argv is the
concatenation of the per-word glob results of the variable-expanded
words.  Compared against `exec1`, whose glob pass reads the original
words. -/
def specExpandThenGlob (w : World) (args : List String) : Except PyExc (List String) :=
  match args.mapM (fun a => expandvars a w.env) with
  | .error e => .error e
  | .ok expanded => .ok ((expanded.map (globWord w)).flatten)

/-- Follows the spec's words for the `lines` production: the sequence of
`line` results separated by `;`, in order, before any combining. -/
def lineSeq : Nat → PState → Except PyExc (List (Option Node) × PState)
  | 0, _ => .error .recursionError
  | n + 1, st =>
    match pLine n st with
    | .error e => .error e
    | .ok (base, st1) =>
      match pAccept .COMMAND_END st1 with
      | .error e => .error e
      | .ok (some _, st2) =>
        match lineSeq n st2 with
        | .error e => .error e
        | .ok (bs, st3) => .ok (base :: bs, st3)
      | .ok (none, st1') => .ok ([base], st1')

/-- Follows the spec's words for combining the halves around each `;`:
two non-null halves become a `Multi`, a single non-null half is returned
directly, and two null halves produce nothing. -/
def combineLines : List (Option Node) → Option Node
  | [] => none
  | b :: rest =>
    match b, combineLines rest with
    | some x, some y => some (.multi x y)
    | some x, none => some x
    | none, r => r

/-- Follows the spec's words for path resolution (§4.3, the statement of
claim C9): a name beginning with `/` or `./` that exists is used
verbatim; otherwise the colon-separated entries of `PATH` are tested in
order for `entry/name` (the join of entry and name) and the first
existing hit is returned; no match raises command-not-found naming the
program. -/
def lookupFromSpec (w : World) (name : String) (pathStr : String) : Except PyExc String :=
  if (strStartsWith name "/" || strStartsWith name "./") && w.fsExists name then
    .ok name
  else
    match (pySplit pathStr ':').find? (fun entry => w.fsExists (osPathJoin entry name)) with
    | some entry => .ok (osPathJoin entry name)
    | none => .error (.commandNotFound name)

/-- A concrete world used by the closed instances below: `/bin/echo` is
the only file, nothing globs, every open succeeds, and the environment
defines `HOME` and `PATH`. -/
def w1 : World :=
  { fsExists := fun p => p = "/bin/echo"
  , fsGlob := fun _ => []
  , fsOpen := fun _ _ => none
  , env := [("HOME", "/root"), ("PATH", "/bin")] }

/-- The initial process state of the concrete instances: pids are handed
out from 2, no children, empty trace. -/
def st0 : ProcState := ⟨2, [], []⟩

/-! Helper lemmas. -/

/-- The name loop of `expandvars` is `takeWhile`/`dropWhile` over the
name-character predicate. -/
theorem scanName_eq (l : List Char) :
    scanName l = (l.takeWhile isNameChar, l.dropWhile isNameChar) := by
  induction l with
  | nil => rfl
  | cons c rest ih =>
    by_cases h : isNameChar c = true <;>
      simp [scanName, List.takeWhile, List.dropWhile, h, ih]

/-- A list of name characters is scanned whole. -/
theorem scanName_all {l : List Char} (h : ∀ c ∈ l, isNameChar c = true) :
    scanName l = (l, []) := by
  rw [scanName_eq, List.takeWhile_eq_self_iff.mpr h, List.dropWhile_eq_nil_iff.mpr h]

/-- The word loop of the tokenizer is `takeWhile`/`dropWhile` over the
word-character predicate. -/
theorem readWordRun_eq (l : List Char) :
    readWordRun l = (l.takeWhile wordish, l.dropWhile wordish) := by
  induction l with
  | nil => rfl
  | cons c rest ih =>
    by_cases h : wordish c = true <;>
      simp [readWordRun, List.takeWhile, List.dropWhile, h, ih]

/-- Reading a quoted word fails when the closing quote never appears. -/
theorem readQuoted_no_close {q : Char} {l : List Char} (h : q ∉ l) :
    readQuoted q l = .error "unexpected end of line while reading quoted word" := by
  induction l with
  | nil => rfl
  | cons c rest ih =>
    have hc : ¬(c = q) := fun hcq => h (by rw [hcq]; exact List.mem_cons_self q rest)
    have hr : q ∉ rest := fun hm => h (List.mem_cons_of_mem c hm)
    simp [readQuoted, hc, ih hr, Except.map]

/-- The path loop of `CommandNode.lookup` returns the join with the
first path entry for which the joined name exists. -/
theorem lookupSearch_eq_find (w : World) (name : String) (l : List String) :
    lookupSearch w name l =
      match l.find? (fun entry => w.fsExists (osPathJoin entry name)) with
      | some entry => .ok (osPathJoin entry name)
      | none => .error (.commandNotFound name) := by
  induction l with
  | nil => rfl
  | cons d rest ih =>
    by_cases h : w.fsExists (osPathJoin d name) = true
    · rw [@List.find?_cons_of_pos _ (fun entry => w.fsExists (osPathJoin entry name)) d rest h]
      simp [lookupSearch, h]
    · rw [@List.find?_cons_of_neg _ (fun entry => w.fsExists (osPathJoin entry name)) d rest h]
      simp only [lookupSearch]
      rw [if_neg h, ih]

/-- Expanding a word that is `$` followed by a non-empty run of name
characters looks the whole run up and raises `KeyError` when the
variable is unknown. -/
theorem expandvars_unknown_name (vars : List (String × String)) (name : String)
    (hne : name.data ≠ []) (hall : ∀ c ∈ name.data, isNameChar c = true)
    (hnone : lookupVar vars name = none) :
    expandvars ("$" ++ name) vars = .error (.keyError name) := by
  have hdata : ("$" ++ name).data = '$' :: name.data := by
    rw [String.data_append]; rfl
  match hd : name.data with
  | [] => exact absurd hd hne
  | c2 :: rest2 =>
    have hc2 : isNameChar c2 = true := hall c2 (by rw [hd]; exact List.mem_cons_self c2 rest2)
    have hbrace : ¬(c2 = '{') := by
      intro hcq
      rw [hcq] at hc2
      exact absurd hc2 (by decide)
    have hscan : scanName (c2 :: rest2) = (c2 :: rest2, []) := by
      rw [← hd]; exact scanName_all hall
    have hmk : String.mk (c2 :: rest2) = name := by rw [← hd]
    rw [expandvars, hdata, hd]
    simp only [List.length_cons, expandvarsFuel, if_pos rfl, if_neg hbrace, hscan, hmk, hnone]
    rfl

/-- Expanding `$` followed by a character that is neither `{` nor a name
character looks up the empty name, raising `KeyError('')` when the
environment has no empty-named variable. -/
theorem expandvars_empty_name (vars : List (String × String)) (n : Nat)
    (c : Char) (rest : List Char)
    (hc : isNameChar c = false) (hbrace : ¬(c = '{'))
    (hnone : lookupVar vars "" = none) :
    expandvarsFuel vars (n + 1) ('$' :: c :: rest) = .error (.keyError "") := by
  have hscan : scanName (c :: rest) = ([], c :: rest) := by
    rw [scanName_eq]
    simp [List.takeWhile_cons, List.dropWhile_cons, hc]
  simp only [expandvarsFuel, if_pos rfl, if_neg hbrace, hscan,
    show String.mk ([] : List Char) = "" from rfl, hnone]
  simp

/-! Claim theorems. -/

/-- C1.  The claim states that a Command's execution variable-expands
each argv word and then glob-expands the expansion result.  The code
disagrees: the glob pass on line 440 of `src/dwsh.py` iterates over
`self.args` instead of the freshly computed expansion, so the expanded
words are discarded.  At the failing input `echo $HOME` (with
`HOME=/root` set and `/bin/echo` present) the child is exec'd with argv
`["echo", "$HOME"]`, while the claimed pipeline (`specExpandThenGlob`)
produces `["echo", "/root"]`; the expansion itself did succeed and was
thrown away. -/
theorem c1_expansion_discarded_by_glob_pass :
    exec1 w1 [] (.command ["echo", "$HOME"]) st0 =
      (.command ["echo", "$HOME"] (some 2),
       ⟨3, [2], [("/bin/echo", ["echo", "$HOME"])]⟩, none) ∧
    expandvars "$HOME" w1.env = .ok "/root" ∧
    specExpandThenGlob w1 ["echo", "$HOME"] = .ok ["echo", "/root"] :=
  ⟨rfl, rfl, rfl⟩

/-- C3 counterexample.  The claim states that an error from the left
child of a Multi node does not prevent the right child from running.  In
the code `MultiNode.execute` runs `first.execute` and the exception
propagates immediately: at `a ; b` (neither resolvable) the left child
raises command-not-found and the right child is left untouched — no pid,
no dispatch event, process state unchanged. -/
theorem c3_counterexample_left_error_skips_right :
    exec1 w1 [] (.multi (.command ["a"]) (.command ["b"])) st0 =
      (.multi (.command ["a"] none) (.command ["b"] none), st0,
       some (.commandNotFound "a")) ∧
    (exec1 w1 [] (.multi (.command ["a"]) (.command ["b"])) st0).2.1.execed = [] :=
  ⟨rfl, rfl⟩

/-- C3, amended: an error raised while executing the left child of a
Multi node propagates out of `MultiNode.execute` at once; the right
child is returned unexecuted (no pids recorded, state untouched by it)
and the error reaches the enclosing dispatcher, whose `finally` clause
still calls `wait` on the root. -/
theorem c3_left_error_propagates_right_unexecuted
    (w : World) (bs : List String) (a b : Node) (st : ProcState)
    (ra : RNode) (st1 : ProcState) (e : PyExc)
    (h : exec1 w bs a st = (ra, st1, some e)) :
    exec1 w bs (.multi a b) st = (.multi ra (initR b), st1, some e) := by
  simp [exec1, h]

/-- C3 witness: the amended theorem applied to the concrete `a ; b`. -/
theorem c3_witness :
    exec1 w1 [] (.multi (.command ["a"]) (.command ["b"])) st0 =
      (.multi (.command ["a"] none) (initR (.command ["b"])), st0,
       some (.commandNotFound "a")) :=
  c3_left_error_propagates_right_unexecuted w1 [] (.command ["a"]) (.command ["b"])
    st0 (.command ["a"] none) st0 (.commandNotFound "a") rfl

/-- C4 counterexample.  The claim states that the name charset is
exactly `[A-Za-z_]` and that expanding the word `$1` yields `$`
followed by the literal `1`.  Both halves fail on the code.  `$1`: the
name loop accepts no character, the empty name is looked up, and
`variables['']` raises `KeyError('')` — even when a variable literally
named `1` is defined.  Charset: the code's `raw[i].isalpha()` is
Python's Unicode predicate, which accepts `é` although `é` is neither
in `[A-Za-z]` nor `_`, so `$é` expands to the value of the variable
`é`. -/
theorem c4_counterexample_dollar_one :
    expandvars "$1" [("1", "one")] = .error (.keyError "") ∧
    ¬(expandvars "$1" [("1", "one")] = .ok "$1") ∧
    lookupVar [("1", "one")] "1" = some "one" ∧
    expandvars "$é" [("é", "x")] = .ok "x" ∧
    Char.isAlpha 'é' = false ∧ ¬('é' = '_') :=
  ⟨rfl, by simp [show expandvars "$1" [("1", "one")] = .error (.keyError "") from rfl],
   rfl, rfl, rfl, by decide⟩

/-- C4, amended: the variable name after `$` is the greedy run of
characters accepted by the code's `isalpha`-or-underscore test.  Digits
are indeed not permitted in names, but the set is strictly larger than
`[A-Za-z_]` because Python's `isalpha` accepts every Unicode letter
(`é` is a name character); and `$1` does not expand to `$1`: the
scanner accepts no character of `1`, the empty name is looked up, and
`KeyError('')` is raised whenever the environment has no empty-named
variable. -/
theorem c4_name_charset_and_dollar_one :
    (∀ l : List Char, scanName l = (l.takeWhile isNameChar, l.dropWhile isNameChar)) ∧
    (∀ c ∈ ['0', '1', '2', '3', '4', '5', '6', '7', '8', '9'], isNameChar c = false) ∧
    (isNameChar 'é' = true ∧ Char.isAlpha 'é' = false ∧ ¬('é' = '_')) ∧
    (∀ vars : List (String × String), lookupVar vars "" = none →
      expandvars "$1" vars = .error (.keyError "")) := by
  refine ⟨scanName_eq, by decide, by decide, fun vars h => ?_⟩
  show (expandvarsFuel vars 3 ['$', '1']).map String.mk = _
  rw [expandvars_empty_name vars 2 '1' [] (by decide) (by decide) h]
  rfl

/-- C4 witness: the amended theorem applied to the concrete digit `5`
and to a concrete environment without an empty-named variable. -/
theorem c4_witness :
    isNameChar '5' = false ∧
    expandvars "$1" [("PATH", "/bin")] = .error (.keyError "") :=
  ⟨c4_name_charset_and_dollar_one.2.1 '5' (by decide),
   c4_name_charset_and_dollar_one.2.2.2 [("PATH", "/bin")] rfl⟩

/-- C9.  The claim describes `CommandNode.lookup`: verbatim use of an
existing `/`- or `./`-prefixed name, otherwise the first colon-separated
`PATH` entry whose join with the name exists, otherwise a
command-not-found error naming the program.  `lookupFromSpec` is that
description written with `List.find?`; it agrees with the code's search
loop for every name, `PATH` string and filesystem. -/
theorem c9_lookup_matches_spec (w : World) (name pathStr : String) :
    lookup w name (pySplit pathStr ':') = lookupFromSpec w name pathStr := by
  simp only [lookup, lookupFromSpec, lookupSearch_eq_find]

/-- C10.  When every argv word of a Command contains `*` and every glob
pattern matches nothing, the flattened argv is empty and reading the
program name (`args[0]`) raises `IndexError`; the dispatcher does not
classify `IndexError`, so it escapes as a crash rather than a shell
diagnostic.  (The expansion pass must succeed for control to reach the
glob pass.) -/
theorem c10_all_glob_empty_index_error
    (w : World) (bs : List String) (args : List String) (st : ProcState)
    (hstar : ∀ a ∈ args, a.data.contains '*' = true)
    (hglob : ∀ a ∈ args, w.fsGlob a = [])
    (hexp : ∃ ex, args.mapM (fun a => expandvars a w.env) = .ok ex) :
    exec1 w bs (.command args) st = (.command args none, st, some .indexError) ∧
    shellRootExec w bs (.command args) st = (.crashed .indexError, st) := by
  obtain ⟨ex, hex⟩ := hexp
  have hflat : (args.map (globWord w)).flatten = [] := by
    rw [List.flatten_eq_nil_iff]
    intro l hl
    obtain ⟨a, ha, rfl⟩ := List.mem_map.mp hl
    rw [globWord, if_pos (hstar a ha)]
    exact hglob a ha
  have hcmd : exec1 w bs (.command args) st = (.command args none, st, some .indexError) := by
    unfold exec1
    rw [hex]
    simp only [hflat]
    rfl
  exact ⟨hcmd, by simp [shellRootExec, hcmd, RNode.wait, classify]⟩

/-- C10 witness: the theorem applied to the single unmatched pattern
`*q` in the concrete world (which globs nothing). -/
theorem c10_witness :
    exec1 w1 [] (.command ["*q"]) st0 = (.command ["*q"] none, st0, some .indexError) ∧
    shellRootExec w1 [] (.command ["*q"]) st0 = (.crashed .indexError, st0) :=
  c10_all_glob_empty_index_error w1 [] ["*q"] st0 (by decide)
    (fun a _ => rfl) ⟨["*q"], rfl⟩

/-- C7 counterexample.  The claim states that `wait` is idempotent: a
second call after the child has been collected has the same effect and
does not fail.  `CommandNode.wait` never clears `self.pid`, so the
second call runs `os.waitpid` on the already-reaped pid and fails with
`ChildProcessError`, although the first call succeeded. -/
theorem c7_counterexample_double_wait_fails :
    RNode.wait (.command ["x"] (some 5)) ⟨6, [5], []⟩ = .ok ⟨6, [], []⟩ ∧
    (RNode.wait (.command ["x"] (some 5)) ⟨6, [5], []⟩).bind
      (RNode.wait (.command ["x"] (some 5))) = .error .childProcessError :=
  ⟨rfl, rfl⟩

/-- C7, amended: `wait` is a no-op — hence safe and idempotent — on any
node that records no pid (in particular one whose `execute` failed
before forking: a Command whose execution raised always comes back with
no pid recorded).  But `wait` is not idempotent on a Command holding a
pid, since the pid is never cleared
(`c7_counterexample_double_wait_fails`). -/
theorem c7_wait_noop_without_pid :
    (∀ (n : RNode) (st : ProcState), pidsOf n = [] → RNode.wait n st = .ok st) ∧
    (∀ (w : World) (bs args : List String) (st : ProcState),
      (exec1 w bs (.command args) st).2.2.isSome = true →
      (exec1 w bs (.command args) st).1 = .command args none) := by
  constructor
  · intro n
    induction n with
    | command args pid? =>
      cases pid? with
      | none => intro st _; rfl
      | some p => intro st h; simp [pidsOf] at h
    | multi a b iha ihb => intro st _; rfl
    | pipe a b iha ihb =>
      intro st h
      rw [pidsOf, List.append_eq_nil] at h
      simp [RNode.wait, iha st h.1, ihb st h.2]
    | redirections base rs ih =>
      intro st h
      rw [pidsOf] at h
      simp [RNode.wait, ih st h]
  · intro w bs args st
    simp only [exec1]
    cases hm : args.mapM (fun a => expandvars a w.env) with
    | error e => simp
    | ok ex =>
      cases hh : ((args.map (globWord w)).flatten).head? with
      | none => simp
      | some command =>
        by_cases hb : command ∈ bs
        · simp [hb]
        · cases hp : lookupVar w.env "PATH" with
          | none => simp [hb, hp]
          | some pathStr =>
            cases hl : lookup w command (pySplit pathStr ':') with
            | error e => simp [hb, hp, hl]
            | ok path => simp [hb, hp, hl]

/-- C7 witness: both parts of the amended theorem at concrete inputs —
a pid-less Command node waits as a no-op, and a Command whose execution
failed (unresolvable program) records no pid. -/
theorem c7_witness :
    RNode.wait (.command ["x"] none) st0 = .ok st0 ∧
    (exec1 w1 [] (.command ["nope"]) st0).1 = .command ["nope"] none :=
  ⟨c7_wait_noop_without_pid.1 (.command ["x"] none) st0 rfl,
   c7_wait_noop_without_pid.2 w1 [] ["nope"] st0 rfl⟩

/-- C2 counterexample.  The claim states that an unknown variable name
prints a diagnostic and the shell continues reading lines.  On the line
`echo $NOSUCH` (with `NOSUCH` undefined) the expansion raises
`KeyError`, which none of the `except` clauses of `Shell.execute`
catches: the exception escapes the dispatcher — the shell terminates
with a traceback instead of printing a diagnostic. -/
theorem c2_counterexample_unknown_var_crashes_shell :
    (shellExecute w1 [] "echo $NOSUCH" st0).1 = .crashed (.keyError "NOSUCH") := rfl

/-- C2, amended: an unknown variable name is indeed a hard error — the
expansion raises `KeyError` naming the variable rather than substituting
the empty string, and the current line is aborted — but the dispatcher
does not catch `KeyError`, so instead of a diagnostic and a continuing
loop the exception escapes `Shell.execute` and the shell terminates
(the `finally` clause still ran `wait` on the pid-less root first). -/
theorem c2_unknown_variable_hard_error_uncaught :
    (∀ (vars : List (String × String)) (name : String),
      name.data ≠ [] → (∀ c ∈ name.data, isNameChar c = true) →
      lookupVar vars name = none →
      expandvars ("$" ++ name) vars = .error (.keyError name)) ∧
    (∀ (w : World) (bs : List String) (st : ProcState) (extra : List String) (name : String),
      name.data ≠ [] → (∀ c ∈ name.data, isNameChar c = true) →
      lookupVar w.env name = none →
      shellRootExec w bs (.command (("$" ++ name) :: extra)) st =
        (.crashed (.keyError name), st)) := by
  constructor
  · exact expandvars_unknown_name
  · intro w bs st extra name h1 h2 h3
    have he : expandvars ("$" ++ name) w.env = .error (.keyError name) :=
      expandvars_unknown_name w.env name h1 h2 h3
    have hmapm : (("$" ++ name) :: extra).mapM (fun a => expandvars a w.env) =
        (.error (.keyError name) : Except PyExc (List String)) := by
      rw [List.mapM_cons, he]
      rfl
    have hcmd : exec1 w bs (.command (("$" ++ name) :: extra)) st =
        (.command (("$" ++ name) :: extra) none, st, some (.keyError name)) := by
      unfold exec1
      rw [hmapm]
    simp [shellRootExec, hcmd, RNode.wait, classify]

/-- C2 witness: the amended theorem at the concrete command `$NOSUCH`
against the concrete environment, which defines no such variable. -/
theorem c2_witness :
    shellRootExec w1 [] (.command ["$NOSUCH"]) st0 = (.crashed (.keyError "NOSUCH"), st0) :=
  c2_unknown_variable_hard_error_uncaught.2 w1 [] st0 [] "NOSUCH" (by decide) (by decide) rfl

/-- C6 counterexample.  The claim states that an unterminated quoted
word is caught by the top-level execute as a parse failure, printing the
`parse error` diagnostic, and the shell continues.  On `echo "abc` the
tokenizer raises a plain `ValueError` while the parser pulls tokens
inside `parse()`; `except ParseError` catches only the subclass, so the
error escapes and the shell terminates instead. -/
theorem c6_counterexample_lex_error_not_caught :
    (shellExecute w1 [] (String.mk ['e', 'c', 'h', 'o', ' ', dquote, 'a', 'b', 'c']) st0).1 =
      .crashed (.valueError "unexpected end of line while reading quoted word") := rfl

/-- C6, amended: a line starting with a quote that never closes raises
the tokenizer's `ValueError` during `Parser` construction — before the
dispatcher's `try` block — and in every case the error is a plain
`ValueError`, not a `ParseError`, so the parse-error handler never
catches it: the line is aborted and the exception escapes
`Shell.execute`, terminating the shell without a `parse error`
diagnostic. -/
theorem c6_unterminated_quote_crashes_shell
    (q : Char) (s : List Char) (w : World) (bs : List String) (st : ProcState)
    (hq : q = squote ∨ q = dquote) (hnc : q ∉ s) :
    (shellExecute w bs (String.mk (q :: s)) st).1 =
      .crashed (.valueError "unexpected end of line while reading quoted word") := by
  have hqs : pyIsSpace q = false := by rcases hq with rfl | rfl <;> decide
  have hqt : ¬(q = '>') := by rcases hq with rfl | rfl <;> decide
  have hlt : ¬(q = '<') := by rcases hq with rfl | rfl <;> decide
  have hpt : ¬(q = '|') := by rcases hq with rfl | rfl <;> decide
  have hst : ¬(q = ';') := by rcases hq with rfl | rfl <;> decide
  have hquo : (q = squote || q = dquote) = true := by
    rcases hq with rfl | rfl <;> simp
  have htok : tokenizeList (q :: s) =
      ([], some "unexpected end of line while reading quoted word") := by
    rw [tokenizeList, List.length_cons]
    simp only [tokenizeFuel, nextToken, List.dropWhile_cons, hqs]
    simp only [Bool.false_eq_true, if_false, nextTokenCore, if_neg hqt, if_neg hlt,
      if_neg hpt, if_neg hst, hquo, if_pos rfl, readQuoted_no_close hnc]
    rfl
  simp only [shellExecute, show (String.mk (q :: s)).data = q :: s from rfl, htok]
  rfl

/-- C6 witness: the amended theorem at the concrete line `"abc`. -/
theorem c6_witness :
    (shellExecute w1 [] (String.mk [dquote, 'a', 'b', 'c']) st0).1 =
      .crashed (.valueError "unexpected end of line while reading quoted word") :=
  c6_unterminated_quote_crashes_shell dquote ['a', 'b', 'c'] w1 [] st0 (Or.inr rfl) (by decide)

/-- C5 counterexample.  The claim states that a non-printable,
non-whitespace character is emitted as an `UNKNOWN` token.  The
character `\x01` is exactly that, yet the word class `[^><|;]` accepts
it and the tokenizer emits it inside a `WORD` token. -/
theorem c5_counterexample_nonprintable_word :
    pyIsPrintable '\x01' = false ∧ pyIsSpace '\x01' = false ∧
    tokenizeList ['\x01'] = ([⟨.WORD, some "\x01"⟩, ⟨.EOF, none⟩], none) :=
  ⟨rfl, rfl, rfl⟩

/-- C5, amended: after whitespace skipping, operator dispatch and quote
handling, a maximal run of non-whitespace characters outside
`{>, <, |, ;}` — printable or not — is consumed into a single `WORD`
token, and no input character is ever emitted as `UNKNOWN`: the word
class `[^><|;]` accepts every character the earlier branches left, so
the `UNKNOWN` branch is unreachable. -/
theorem c5_word_run_and_unknown_unreachable :
    (∀ (s : List Char) (t : Token) (r : List Char),
      nextToken s = .ok (t, r) → t.ttype ≠ TokenType.UNKNOWN) ∧
    (∀ (s : List Char) (c : Char) (rest : List Char),
      s.dropWhile pyIsSpace = c :: rest →
      c ≠ '>' → c ≠ '<' → c ≠ '|' → c ≠ ';' → c ≠ squote → c ≠ dquote →
      nextToken s = .ok (⟨.WORD, some (String.mk ((c :: rest).takeWhile wordish))⟩,
        (c :: rest).dropWhile wordish)) := by
  constructor
  · intro s t r h
    rw [nextToken] at h
    rcases hd : s.dropWhile pyIsSpace with _ | ⟨c, rest⟩ <;> rw [hd] at h
    · simp only [nextTokenCore, Except.ok.injEq, Prod.mk.injEq] at h
      rw [← h.1]
      decide
    · simp only [nextTokenCore] at h
      split at h
      · split at h <;>
          · simp only [Except.ok.injEq, Prod.mk.injEq] at h
            rw [← h.1]
            simp
      · split at h
        · simp only [Except.ok.injEq, Prod.mk.injEq] at h
          rw [← h.1]
          simp
        · split at h
          · simp only [Except.ok.injEq, Prod.mk.injEq] at h
            rw [← h.1]
            simp
          · split at h
            · simp only [Except.ok.injEq, Prod.mk.injEq] at h
              rw [← h.1]
              simp
            · split at h
              · cases hrq : readQuoted c rest <;> rw [hrq] at h
                · simp [Except.map] at h
                · simp only [Except.map, Except.ok.injEq, Prod.mk.injEq] at h
                  rw [← h.1]
                  simp
              · split at h
                · simp only [Except.ok.injEq, Prod.mk.injEq] at h
                  rw [← h.1]
                  simp
                · exfalso
                  simp_all [wordCharsMatch]
  · intro s c rest hd h1 h2 h3 h4 h5 h6
    have hw : wordCharsMatch c = true := by
      simp [wordCharsMatch, h1, h2, h3, h4]
    have hq : (c = squote || c = dquote) = false := by
      simp [h5, h6]
    rw [nextToken, hd]
    simp only [nextTokenCore, if_neg h1, if_neg h2, if_neg h3, if_neg h4, hq,
      Bool.false_eq_true, if_false, hw, if_pos rfl, readWordRun_eq]
    simp

/-- C5 witness: the amended theorem at the concrete input `\x01a` — the
non-printable character starts an ordinary two-character `WORD`. -/
theorem c5_witness :
    Token.ttype ⟨.WORD, some "\x01a"⟩ ≠ TokenType.UNKNOWN ∧
    nextToken ['\x01', 'a'] =
      .ok (⟨.WORD, some (String.mk (List.takeWhile wordish ['\x01', 'a']))⟩,
        List.dropWhile wordish ['\x01', 'a']) :=
  ⟨c5_word_run_and_unknown_unreachable.1 ['\x01', 'a'] ⟨.WORD, some "\x01a"⟩ [] rfl,
   c5_word_run_and_unknown_unreachable.2 ['\x01', 'a'] '\x01' ['a'] rfl (by decide)
     (by decide) (by decide) (by decide) (by decide) (by decide)⟩

/-- Unfolding lemma: combining the empty sequence of line results
produces nothing. -/
theorem combineLines_nil : combineLines [] = none := rfl

/-- Unfolding lemma: combining a non-empty sequence of line results
follows the non-null pairing rule. -/
theorem combineLines_cons (b : Option Node) (bs : List (Option Node)) :
    combineLines (b :: bs) =
      match b, combineLines bs with
      | some x, some y => some (.multi x y)
      | some x, none => some x
      | none, r => r := rfl

/-- C8.  The `lines` production equals the per-`;` sequence of `line`
results (`lineSeq`) combined by the spec's rule (`combineLines`): two
non-null halves become a `Multi`, a single non-null half is returned
directly, two null halves produce null — for every token stream and
every recursion budget.  Concretely, a bare `;` and a trailing `;`
parse successfully and produce nothing. -/
theorem c8_lines_combines_nonnull_halves :
    (∀ (fuel : Nat) (st : PState),
      pLines fuel st = (lineSeq fuel st).map (fun bsst => (combineLines bsst.1, bsst.2))) ∧
    parseLine ";" = .ok none ∧
    parseLine "a;" = .ok (some (.command ["a"])) ∧
    parseLine ";b" = .ok (some (.command ["b"])) ∧
    parseLine "a;b" = .ok (some (.multi (.command ["a"]) (.command ["b"]))) := by
  refine ⟨?_, rfl, rfl, rfl, rfl⟩
  intro fuel
  induction fuel with
  | zero => intro st; rfl
  | succ n ih =>
    intro st
    cases hline : pLine n st with
    | error e => simp [pLines, lineSeq, hline, Except.map]
    | ok p =>
      obtain ⟨base, st1⟩ := p
      cases hacc : pAccept .COMMAND_END st1 with
      | error e => simp [pLines, lineSeq, hline, hacc, Except.map]
      | ok q =>
        obtain ⟨t?, st2⟩ := q
        cases t? with
        | none =>
          cases base <;>
            simp [pLines, lineSeq, hline, hacc, Except.map,
              combineLines_cons, combineLines_nil]
        | some tk =>
          cases hseq : lineSeq n st2 with
          | error e =>
            simp [pLines, lineSeq, hline, hacc, Except.map, ih st2, hseq]
          | ok r =>
            obtain ⟨bs, st3⟩ := r
            cases base <;> cases hcb : combineLines bs <;>
              simp [pLines, lineSeq, hline, hacc, Except.map, ih st2, hseq,
                combineLines_cons, hcb]

end Dwsh
